import Mathlib

/-!
# Verification of the C2 credential / session core

Shallow embedding of the repository's server and common modules
(`server/token_manager.py`, `server/client_handler.py`, `server/cli.py`,
`common/protocol.py`, `common/auth.py`) together with proofs about the
claims on the credential lifecycle, the registration decision table,
connection-registry maintenance, and the length-prefixed wire protocol.

Conventions of the embedding:
* SQLite rows of the `tokens` table become `TokenRecord`; the table becomes
  an association list keyed by hostname (`TokenStore`).  `CURRENT_TIMESTAMP`
  is an abstract tick passed in as a `now : Nat` parameter.
* `secrets.token_hex(32)` (in `generate_token`) is a fresh random string;
  the embedding threads the value it would produce as an explicit
  `newTok : String` parameter.
* Python byte strings become `List Nat` (each element < 256); Python `str`
  at the wire level becomes a list of Unicode code points (`List Nat`),
  while the handler-level embedding uses Lean `String` directly.
* Falsiness of a Python string (`if not token`) is modelled by comparison
  with the empty string.
-/

namespace C2

/-- Token lifecycle states actually written to the `status` column by
`token_manager.py` (`pending`, `approved`, `revoked`, `denied`). -/
inductive TokenStatus where
  | pending
  | approved
  | revoked
  | denied
deriving DecidableEq, Repr

open TokenStatus

/-- One row of the `tokens` table (`server/token_manager.py`,
`init_database`): hostname is the association-list key, the remaining
columns are the fields below.  Timestamps are abstract `Nat` ticks. -/
structure TokenRecord where
  token : String
  status : TokenStatus
  ip_address : Option String
  requested_at : Nat
  approved_at : Option Nat
  revoked_at : Option Nat
deriving DecidableEq, Repr

/-- The `tokens` table: association list keyed by `hostname`
(unique per the schema's UNIQUE constraint). -/
abbrev TokenStore := List (String × TokenRecord)

/-- Remove every pair with the given key (the effect of SQL `DELETE ...
WHERE hostname = ?` and of Python `del d[key]` on our unique-key
association lists). -/
def eraseKey {β : Type} (h : String) : List (String × β) → List (String × β)
  | [] => []
  | p :: t => if p.1 = h then eraseKey h t else p :: eraseKey h t

/-- Embeds `SELECT ... WHERE hostname = ?` on the store. -/
def storeLookup (st : TokenStore) (hostname : String) : Option TokenRecord :=
  List.lookup hostname st

/-- Embeds `UPDATE tokens SET ... WHERE hostname = ?`: apply `f` to every row of
the given hostname (at most one exists under the UNIQUE constraint). -/
def storeUpdate (st : TokenStore) (hostname : String)
    (f : TokenRecord → TokenRecord) : TokenStore :=
  st.map (fun p => if p.1 = hostname then (p.1, f p.2) else p)

/-- Embeds `INSERT INTO tokens ...` (callers only insert when no row exists). -/
def storeInsert (st : TokenStore) (hostname : String) (r : TokenRecord) :
    TokenStore :=
  st ++ [(hostname, r)]

/-- Embeds `token_manager.request_token(hostname, ip_address)`.
`now` is `CURRENT_TIMESTAMP`; `newTok` is the value `generate_token()`
would return if called.  Result mirrors the Python
`(success, token, status)` triple; the `sqlite3.IntegrityError` branch is
unreachable in this sequential embedding (the whole call holds `db_lock`
and has just observed that no row exists), so insertion always succeeds. -/
def request_token (now : Nat) (newTok : String) (st : TokenStore)
    (hostname ip_address : String) :
    TokenStore × (Bool × Option String × TokenStatus) :=
  match storeLookup st hostname with
  | some r =>
    if r.status = approved then
      (st, (true, some r.token, approved))
    else if r.status = pending then
      (st, (true, some r.token, pending))
    else
      -- revoked or denied: new token, reset to pending, clear timestamps
      (storeUpdate st hostname (fun r => { r with
          token := newTok, status := pending, ip_address := some ip_address,
          requested_at := now, approved_at := none, revoked_at := none }),
       (true, some newTok, pending))
  | none =>
    (storeInsert st hostname
      { token := newTok, status := pending, ip_address := some ip_address,
        requested_at := now, approved_at := none, revoked_at := none },
     (true, some newTok, pending))

/-- Embeds `token_manager.approve_token(hostname)`; returns `(success, token)`. -/
def approve_token (now : Nat) (st : TokenStore) (hostname : String) :
    TokenStore × (Bool × Option String) :=
  match storeLookup st hostname with
  | none => (st, (false, none))
  | some r =>
    if r.status = approved then
      (st, (true, some r.token))
    else
      (storeUpdate st hostname (fun r => { r with
          status := approved, approved_at := some now }),
       (true, some r.token))

/-- Embeds `token_manager.deny_token(hostname)`: a bare
`UPDATE tokens SET status = 'denied' WHERE hostname = ?`; succeeds iff a
row was affected, with no check of the current status. -/
def deny_token (st : TokenStore) (hostname : String) : TokenStore × Bool :=
  (storeUpdate st hostname (fun r => { r with status := denied }),
   (storeLookup st hostname).isSome)

/-- Embeds `token_manager.revoke_token(hostname)`: a bare
`UPDATE tokens SET status = 'revoked', revoked_at = CURRENT_TIMESTAMP
WHERE hostname = ?`; succeeds iff a row was affected, with no check of the
current status. -/
def revoke_token (now : Nat) (st : TokenStore) (hostname : String) :
    TokenStore × Bool :=
  (storeUpdate st hostname (fun r => { r with
      status := revoked, revoked_at := some now }),
   (storeLookup st hostname).isSome)

/-- Embeds `token_manager.get_token_by_hostname(hostname)`: `(token, status)` or
`(None, None)`. -/
def get_token_by_hostname (st : TokenStore) (hostname : String) :
    Option (String × TokenStatus) :=
  (storeLookup st hostname).map (fun r => (r.token, r.status))

/-- Embeds `token_manager.delete_token(hostname)`. -/
def delete_token (st : TokenStore) (hostname : String) : TokenStore × Bool :=
  (eraseKey hostname st, (storeLookup st hostname).isSome)

/-- Outcome of the operator-level `renew` command (`server/cli.py`,
`renew_token`): which message path the function takes. -/
inductive RenewOutcome where
  | noToken      -- "No token found"
  | notRevoked   -- "Token ... is not revoked"
  | renewed      -- "Token renewed"
  | failed       -- approve_token reported failure
deriving DecidableEq, Repr

/-- Embeds `cli.renew_token(target)` after ordinal resolution has produced the
hostname: look up `(token, status)`; refuse when the row is missing
(`if not token`, Python falsiness) or the status is not `revoked`;
otherwise call `token_manager.approve_token`. -/
def cli_renew_token (now : Nat) (st : TokenStore) (hostname : String) :
    TokenStore × RenewOutcome :=
  match get_token_by_hostname st hostname with
  | none => (st, RenewOutcome.noToken)
  | some (tok, status) =>
    if tok = "" then (st, RenewOutcome.noToken)
    else if status ≠ revoked then (st, RenewOutcome.notRevoked)
    else
      let (st2, res) := approve_token now st hostname
      (st2, if res.1 then RenewOutcome.renewed else RenewOutcome.failed)

/-! ## Connection registry and session handler
(`server/client_handler.py`) -/

/-- One value of the global `clients` dict
(`{hostname: {session_id, socket, address, thread, lock}}`); the socket is
identified by an abstract handle number, the thread and the per-client
lock carry no data relevant to the embedded behaviour. -/
structure ClientEntry where
  session_id : String
  socketId : Nat
  address : String × Nat
deriving DecidableEq, Repr

/-- The global `clients` dict, keyed by hostname. -/
abbrev Registry := List (String × ClientEntry)

/-- Dict lookup `clients[hostname]` / `hostname in clients`. -/
def regLookup (reg : Registry) (hostname : String) : Option ClientEntry :=
  List.lookup hostname reg

/-- Embeds `clients[hostname] = {...}`: insert, overwriting any existing entry
for that hostname. -/
def regInsert (reg : Registry) (hostname : String) (e : ClientEntry) :
    Registry :=
  (hostname, e) :: eraseKey hostname reg

/-- Split a character list at every occurrence of `sep`
(Python `s.split(sep)` for a single-character separator). -/
def splitChar (sep : Char) (l : List Char) : List (List Char) :=
  match l with
  | [] => [[]]
  | c :: rest =>
    let r := splitChar sep rest
    if c = sep then [] :: r
    else
      match r with
      | [] => [[c]]
      | g :: gs => (c :: g) :: gs

/-- Re-join character-list groups with `sep` between them (inverse of
`splitChar`, used to rebuild the unsplit tail of `split(sep, n)`). -/
def joinChar (sep : Char) : List (List Char) → List Char
  | [] => []
  | [g] => g
  | g :: gs => g ++ sep :: joinChar sep gs

/-- Embeds `a.startswith(b)` on character lists (`listStarts a b`). -/
def listStarts : List Char → List Char → Bool
  | _, [] => true
  | [], _ :: _ => false
  | a :: as2, b :: bs => a = b && listStarts as2 bs

/-- Python `s.split(':', 2)`: at most two splits, the tail keeps its
colons. -/
def pySplitColon2 (s : String) : List String :=
  match splitChar ':' s.data with
  | a :: b :: c :: rest => [String.mk a, String.mk b,
                            String.mk (joinChar ':' (c :: rest))]
  | parts => parts.map String.mk

/-- Result of `handle_registration`: the single status message sent to the
peer (if any), whether the handler closed the socket, the registry after
the call, and the returned hostname (`None` on failure). -/
structure RegResult where
  reply : Option String
  closed : Bool
  registry : Registry
  ret : Option String
deriving DecidableEq, Repr

/-- Embeds `client_handler.handle_registration(client_socket, client_address,
session_id, reg_message)` over store `st` and registry `reg`.  Mirrors the
source: parse `REGISTER:hostname:token` with `split(':', 2)`; look up the
stored row; `if stored_token and token_status` (falsiness of the token
string); constant-time compare; then branch on status — `revoked` replies
`TOKEN_STATUS:revoked` and closes, `approved` inserts into `clients`
(overwriting) and returns the hostname with the socket left open,
anything else replies `TOKEN_STATUS:invalid` and closes.  No message is
sent on the success path. -/
def handle_registration (st : TokenStore) (reg : Registry)
    (session_id : String) (socketId : Nat) (address : String × Nat)
    (reg_message : String) : RegResult :=
  let parts := pySplitColon2 reg_message
  if h3 : parts.length = 3 then
    let hostname := parts[1]
    let client_token := parts[2]
    match get_token_by_hostname st hostname with
    | some (stored_token, token_status) =>
      if stored_token ≠ "" then
        if stored_token = client_token then
          match token_status with
          | revoked =>
            ⟨some "TOKEN_STATUS:revoked", true, reg, none⟩
          | approved =>
            ⟨none, false,
             regInsert reg hostname ⟨session_id, socketId, address⟩,
             some hostname⟩
          | _ =>
            ⟨some "TOKEN_STATUS:invalid", true, reg, none⟩
        else
          ⟨some "TOKEN_STATUS:invalid", true, reg, none⟩
      else
        ⟨some "TOKEN_STATUS:invalid", true, reg, none⟩
    | none =>
      ⟨some "TOKEN_STATUS:invalid", true, reg, none⟩
  else
    ⟨none, true, reg, none⟩

/-- One iteration of the post-registration loop of
`client_handler.handle_client` (lines 85–86): literally
`while True: time.sleep(60)` — the body performs no socket read, no
health check, and no registry access, so it is the identity on the
shared registry.  Closure of the transport raises nothing inside
`time.sleep`, so the loop is never exited by a disconnect. -/
def handleClientIdleStep (reg : Registry) : Registry := reg

/-- The `finally` block of `client_handler.handle_client` (lines 95–105):
`if hostname and hostname in clients: del clients[hostname]` — the entry
under the handler's hostname is deleted unconditionally, with no check
that it still belongs to this handler's session. -/
def handleClientCleanup (reg : Registry) (hostname : Option String) :
    Registry :=
  match hostname with
  | none => reg
  | some h =>
    if h ≠ "" ∧ (regLookup reg h).isSome then
      eraseKey h reg
    else
      reg

/-- What `recv_message` yields inside `send_command_to_client` after a
command was sent: a timeout (`socket.timeout`), `None`
(disconnect/error), or a decoded message. -/
inductive RecvOutcome where
  | timedOut
  | closed
  | msg (s : String)
deriving DecidableEq, Repr

/-- Python `s.split(':', 1)`. -/
def pySplitColon1 (s : String) : List String :=
  match splitChar ':' s.data with
  | a :: b :: rest => [String.mk a, String.mk (joinChar ':' (b :: rest))]
  | parts => parts.map String.mk

/-- One scan step of Python `s.split(sep)` for a multi-character
separator: `fuel` bounds the scan (callers pass the list length, which
suffices since each step consumes at least one character). -/
def splitSeqLoop (sep : List Char) : Nat → List Char → List (List Char)
  | _, [] => [[]]
  | 0, l => [l]
  | fuel + 1, c :: rest =>
    if listStarts (c :: rest) sep then
      [] :: splitSeqLoop sep fuel ((c :: rest).drop sep.length)
    else
      match splitSeqLoop sep fuel rest with
      | [] => [[c]]
      | g :: gs => (c :: g) :: gs

/-- Python `s.split(sep)` for a non-empty multi-character separator
(used for the `'|||'` stdout/stderr delimiter). -/
def pySplitSeq (sep : String) (s : String) : List String :=
  (splitSeqLoop sep.data s.data.length s.data).map String.mk

/-- Embeds `client_handler.send_command_to_client(hostname, command)`: look up
the registry entry (error string `"Client not found or not
authenticated"` when absent), send `CMD:<command>` (error `"Failed to
send command"` when the transport write fails, e.g. because the socket
is closed), then wait for one response and parse
`RESULT:stdout|||stderr`.  `sendOk` and `response` stand for the
behaviour of the entry's transport. -/
def send_command_to_client (reg : Registry) (sendOk : Bool)
    (response : RecvOutcome) (hostname command : String) :
    Option String × String :=
  match regLookup reg hostname with
  | none => (none, "Client not found or not authenticated")
  | some _ =>
    if ¬ sendOk then (none, "Failed to send command")
    else
      match response with
      | RecvOutcome.timedOut => (none, "Timeout waiting for response")
      | RecvOutcome.closed =>
        (none, "No response from client (may be disconnected)")
      | RecvOutcome.msg resp =>
        if listStarts resp.data "RESULT".data then
          match pySplitColon1 resp with
          | [_, result_data] =>
            let parts := pySplitSeq "|||" result_data
            (some (parts.getD 0 ""), parts.getD 1 "")
          | _ =>
            -- `response.split(':', 1)[1]` raised IndexError (no colon);
            -- caught by the generic handler
            (none, "Error: list index out of range")
        else (none, "Invalid response format")

/-! ## Operator ordinal resolution (`server/cli.py`,
`server/client_handler.py`) -/

/-- ASCII whitespace as stripped by Python `int(str)`. -/
def isPySpace (c : Char) : Bool :=
  c = ' ' ∨ c = '\t' ∨ c = '\n' ∨ c = '\r' ∨ c = '\x0b' ∨ c = '\x0c'

/-- Decimal digit. -/
def isDigitChar (c : Char) : Bool := '0' ≤ c ∧ c ≤ '9'

/-- Numeric value of a decimal digit string. -/
def digitsToNat (l : List Char) : Nat :=
  l.foldl (fun acc c => acc * 10 + (c.toNat - 48)) 0

/-- Model of Python `int(s)` on a string: strip surrounding whitespace,
then parse an optionally signed decimal integer; `None` models the
`ValueError` that the callers catch. -/
def pyInt? (s : String) : Option Int :=
  let l := (s.data.dropWhile isPySpace).reverse.dropWhile isPySpace
    |>.reverse
  let signAndDigits : Int × List Char :=
    match l with
    | '+' :: rest => (1, rest)
    | '-' :: rest => (-1, rest)
    | _ => (1, l)
  let ds := signAndDigits.2
  if ds ≠ [] ∧ ds.all isDigitChar then
    some (signAndDigits.1 * digitsToNat ds)
  else
    none

/-- Embeds `cli.get_pending_hostname_by_number(number)` over the current
`get_pending_requests()` snapshot (hostname, ip, requested_at triples,
ordered by request time): `int(number)`, then a 1-based bounds check,
returning the hostname or `None`; `ValueError`/`IndexError` yield
`None`. -/
def get_pending_hostname_by_number
    (pending : List (String × String × Nat)) (number : String) :
    Option String :=
  match pyInt? number with
  | none => none
  | some num =>
    if h : 1 ≤ num ∧ num ≤ pending.length then
      some (pending.get ⟨(num - 1).toNat, by omega⟩).1
    else
      none

/-- Embeds `client_handler.get_hostname_by_number(number)` over the current
`get_clients_list()` snapshot (hostnames with 1-based indices): the
source loops over `enumerate(clients.items(), 1)` comparing indices. -/
def get_hostname_by_number (clientsList : List String) (number : String) :
    Option String :=
  match pyInt? number with
  | none => none
  | some num =>
    ((List.enumFrom 1 clientsList).find? (fun p => (p.1 : Int) = num)).map
      (fun p => p.2)

/-- Embeds `cli.approve_token(target)`: resolve the ordinal against the pending
snapshot, fall back to the literal argument
(`get_pending_hostname_by_number(target) or target`), then call
`token_manager.approve_token` on the chosen hostname. -/
def cli_approve_token (now : Nat) (st : TokenStore)
    (pending : List (String × String × Nat)) (target : String) :
    String × (TokenStore × (Bool × Option String)) :=
  let hostname := (get_pending_hostname_by_number pending target).getD target
  (hostname, approve_token now st hostname)

/-! ## Wire protocol (`common/protocol.py`, `common/config.py`)

Byte strings are `List Nat` with every element < 256; a Python `str` at
this layer is its list of Unicode code points (`List Nat`, scalar
values). -/

/-- Embeds `MAX_MESSAGE_SIZE = 10 * 1024 * 1024` (`common/config.py`). -/
def MAX_MESSAGE_SIZE : Nat := 10 * 1024 * 1024

/-- Embeds `struct.pack('>I', n)`: the four big-endian bytes of `n < 2^32`. -/
def packBE4 (n : Nat) : List Nat :=
  [n / 2 ^ 24 % 256, n / 2 ^ 16 % 256, n / 2 ^ 8 % 256, n % 256]

/-- Embeds `struct.unpack('>I', b)[0]` on a 4-byte string. -/
def unpackBE4 (b : List Nat) : Nat :=
  match b with
  | [b0, b1, b2, b3] => b0 * 2 ^ 24 + b1 * 2 ^ 16 + b2 * 2 ^ 8 + b3
  | _ => 0

/-! ### UTF-8 codec

`message.encode('utf-8')` and `data.decode('utf-8', errors='replace')`
from CPython, over code-point lists. -/

/-- A Unicode scalar value: what a Python `str` character that UTF-8 can
encode may hold (surrogates excluded — `str.encode('utf-8')` raises on
them, and `str` objects produced by decoding never contain them). -/
def IsScalar (n : Nat) : Prop :=
  n < 0x110000 ∧ ¬ (0xD800 ≤ n ∧ n ≤ 0xDFFF)

instance (n : Nat) : Decidable (IsScalar n) := by
  unfold IsScalar
  infer_instance

/-- UTF-8 encoding of one code point (CPython `str.encode('utf-8')`). -/
def utf8EncodeChar (n : Nat) : List Nat :=
  if n < 0x80 then [n]
  else if n < 0x800 then [0xC0 + n / 64, 0x80 + n % 64]
  else if n < 0x10000 then
    [0xE0 + n / 4096, 0x80 + n / 64 % 64, 0x80 + n % 64]
  else
    [0xF0 + n / 262144, 0x80 + n / 4096 % 64, 0x80 + n / 64 % 64,
     0x80 + n % 64]

/-- Embeds `s.encode('utf-8')` over a code-point list. -/
def utf8Encode (s : List Nat) : List Nat := s.flatMap utf8EncodeChar

/-- U+FFFD REPLACEMENT CHARACTER, what `errors='replace'` substitutes. -/
def replacementChar : Nat := 0xFFFD

/-- One step of CPython's incremental UTF-8 decoder with
`errors='replace'`: given the lead byte and the remaining bytes, return
the decoded code point (or U+FFFD) and how many bytes beyond the lead
were consumed.  Lead-byte ranges and the lead-specific bounds on the
first continuation byte (E0/ED/F0/F4) implement exactly the valid UTF-8
ranges: no overlongs, no surrogates, nothing above U+10FFFF; an invalid
continuation byte causes a single U+FFFD consuming the maximal valid
prefix, as CPython does. -/
def utf8DecodeStep (b : Nat) (rest : List Nat) : Nat × Nat :=
  if b < 0x80 then (b, 0)
  else if 0xC2 ≤ b ∧ b ≤ 0xDF then
    match rest with
    | c1 :: _ =>
      if 0x80 ≤ c1 ∧ c1 ≤ 0xBF then ((b - 0xC0) * 64 + (c1 - 0x80), 1)
      else (replacementChar, 0)
    | [] => (replacementChar, 0)
  else if 0xE0 ≤ b ∧ b ≤ 0xEF then
    match rest with
    | c1 :: rest1 =>
      if (if b = 0xE0 then 0xA0 else 0x80) ≤ c1 ∧
          c1 ≤ (if b = 0xED then 0x9F else 0xBF) then
        match rest1 with
        | c2 :: _ =>
          if 0x80 ≤ c2 ∧ c2 ≤ 0xBF then
            ((b - 0xE0) * 4096 + (c1 - 0x80) * 64 + (c2 - 0x80), 2)
          else (replacementChar, 1)
        | [] => (replacementChar, 1)
      else (replacementChar, 0)
    | [] => (replacementChar, 0)
  else if 0xF0 ≤ b ∧ b ≤ 0xF4 then
    match rest with
    | c1 :: rest1 =>
      if (if b = 0xF0 then 0x90 else 0x80) ≤ c1 ∧
          c1 ≤ (if b = 0xF4 then 0x8F else 0xBF) then
        match rest1 with
        | c2 :: rest2 =>
          if 0x80 ≤ c2 ∧ c2 ≤ 0xBF then
            match rest2 with
            | c3 :: _ =>
              if 0x80 ≤ c3 ∧ c3 ≤ 0xBF then
                ((b - 0xF0) * 262144 + (c1 - 0x80) * 4096 +
                   (c2 - 0x80) * 64 + (c3 - 0x80), 3)
              else (replacementChar, 2)
            | [] => (replacementChar, 2)
          else (replacementChar, 1)
        | [] => (replacementChar, 1)
      else (replacementChar, 0)
    | [] => (replacementChar, 0)
  else
    -- stray continuation byte (0x80–0xBF), overlong lead (C0/C1),
    -- or lead above F4
    (replacementChar, 0)

/-- Decoder loop, structurally recursive on a fuel bound (the input
length always suffices, since every step consumes the lead byte). -/
def utf8DecodeLoop : Nat → List Nat → List Nat
  | _, [] => []
  | 0, _ :: _ => []
  | fuel + 1, b :: rest =>
    let step := utf8DecodeStep b rest
    step.1 :: utf8DecodeLoop fuel (rest.drop step.2)

/-- Embeds `data.decode('utf-8', errors='replace')` over byte lists, as a
code-point list. -/
def utf8DecodeReplace (s : List Nat) : List Nat :=
  utf8DecodeLoop s.length s

/-! ### send / receive (`common/protocol.py`) -/

/-- Embeds `protocol.send_message(sock, message)` on a byte-string argument:
frame with `struct.pack('>I', len(message))` and `sock.sendall`.
`transportOk` stands for whether `sendall` succeeds; any exception
(including `struct.error` when the length does not fit 4 bytes) is
caught and turns into `False`.  The second component is the byte
sequence written to the socket (empty when the call fails). -/
def send_message_bytes (transportOk : Bool) (message : List Nat) :
    Bool × List Nat :=
  if message.length < 2 ^ 32 ∧ transportOk then
    (true, packBE4 message.length ++ message)
  else
    (false, [])

/-- Embeds `protocol.send_message(sock, message)` on a `str` argument: the
source first runs `message = message.encode('utf-8')`, then proceeds as
for bytes.  Note there is no comparison against `MAX_MESSAGE_SIZE`
anywhere on the send path. -/
def send_message (transportOk : Bool) (message : List Nat) :
    Bool × List Nat :=
  send_message_bytes transportOk (utf8Encode message)

/-- Embeds `protocol.recv_exact(sock, n)` over the remaining stream contents
(`stream` is everything the peer will deliver before closing): either
the first `n` bytes together with the rest of the stream, or `None`
when the stream closes short. -/
def recv_exact (stream : List Nat) (n : Nat) :
    Option (List Nat × List Nat) :=
  if n ≤ stream.length then some (stream.take n, stream.drop n) else none

/-- Embeds `protocol.recv_message(sock)` down to the raw payload: result and the
number of bytes consumed from the stream.  The oversize branch raises a
plain `Exception`, which the function's own generic handler catches and
converts to `None` — at the interface the very same `None` that a
short read (connection closed) produces; the payload is not read in
that branch (only the 4 header bytes were consumed). -/
def recv_message_raw (stream : List Nat) : Option (List Nat) × Nat :=
  match recv_exact stream 4 with
  | none => (none, stream.length)
  | some (header, rest) =>
    let message_length := unpackBE4 header
    if message_length > MAX_MESSAGE_SIZE then
      (none, 4)
    else
      match recv_exact rest message_length with
      | none => (none, stream.length)
      | some (message_data, _) => (some message_data, 4 + message_length)

/-- Embeds `protocol.recv_message(sock)`: the decoded text
(`message_data.decode('utf-8', errors='replace')`) or `None`. -/
def recv_message (stream : List Nat) : Option (List Nat) :=
  (recv_message_raw stream).1.map utf8DecodeReplace

/-! ## Association-list lemmas shared by the proofs -/

theorem lookup_map_update {β : Type} (h : String) (f : β → β) :
    ∀ (st : List (String × β)),
      List.lookup h
        (st.map (fun p => if p.1 = h then (p.1, f p.2) else p)) =
        (List.lookup h st).map f
  | [] => rfl
  | (k, v) :: t => by
    rcases eq_or_ne k h with hk | hk
    · subst hk
      simp [List.lookup_cons, lookup_map_update k f t]
    · have h1 : h ≠ k := fun hh => hk hh.symm
      have hb : (h == k) = false := beq_false_of_ne h1
      simp [List.lookup_cons, hk, hb, lookup_map_update h f t]

theorem lookup_map_update_other {β : Type} (h h2 : String) (f : β → β)
    (hne : h2 ≠ h) :
    ∀ (st : List (String × β)),
      List.lookup h2
        (st.map (fun p => if p.1 = h then (p.1, f p.2) else p)) =
        List.lookup h2 st
  | [] => rfl
  | (k, v) :: t => by
    rcases eq_or_ne h2 k with hk2 | hk2
    · rcases eq_or_ne k h with hk | hk
      · exact absurd (hk2.trans hk) hne
      · have hb : (h2 == k) = true := beq_iff_eq.mpr hk2
        simp [List.lookup_cons, hk, hb]
    · have hb : (h2 == k) = false := beq_false_of_ne hk2
      rcases eq_or_ne k h with hk | hk
      · subst hk
        simp [List.lookup_cons, hb, lookup_map_update_other k h2 f hne t]
      · simp [List.lookup_cons, hk, hb,
          lookup_map_update_other h h2 f hne t]

theorem map_update_of_lookup_none {β : Type} (h : String) (f : β → β) :
    ∀ (st : List (String × β)), List.lookup h st = none →
      st.map (fun p => if p.1 = h then (p.1, f p.2) else p) = st
  | [], _ => rfl
  | (k, v) :: t, hl => by
    rcases eq_or_ne k h with hk | hk
    · subst hk
      simp [List.lookup_cons] at hl
    · have h1 : h ≠ k := fun hh => hk hh.symm
      have hb : (h == k) = false := beq_false_of_ne h1
      simp only [List.lookup_cons, hb] at hl
      simp [hk, map_update_of_lookup_none h f t hl]

theorem lookup_append_of_none {β : Type} (h : String) (r : β) :
    ∀ (st : List (String × β)), List.lookup h st = none →
      List.lookup h (st ++ [(h, r)]) = some r
  | [], _ => by simp [List.lookup_cons]
  | (k, v) :: t, hl => by
    rcases eq_or_ne h k with hk | hk
    · subst hk
      simp [List.lookup_cons] at hl
    · have hb : (h == k) = false := beq_false_of_ne hk
      simp only [List.lookup_cons, hb] at hl
      simp only [List.cons_append, List.lookup_cons, hb]
      exact lookup_append_of_none h r t hl

theorem lookup_eraseKey_self {β : Type} (h : String) :
    ∀ (reg : List (String × β)),
      List.lookup h (eraseKey h reg) = none
  | [] => rfl
  | (k, v) :: t => by
    rcases eq_or_ne k h with hk | hk
    · simp [eraseKey, hk, lookup_eraseKey_self h t]
    · have h1 : h ≠ k := fun hh => hk hh.symm
      have hb : (h == k) = false := beq_false_of_ne h1
      simp [eraseKey, List.lookup_cons, hk, hb, lookup_eraseKey_self h t]

theorem lookup_eraseKey_other {β : Type} (h h2 : String) (hne : h2 ≠ h) :
    ∀ (reg : List (String × β)),
      List.lookup h2 (eraseKey h reg) = List.lookup h2 reg
  | [] => rfl
  | (k, v) :: t => by
    rcases eq_or_ne k h with hk | hk
    · have hb : (h2 == h) = false := beq_false_of_ne hne
      simp [eraseKey, List.lookup_cons, hk, hb,
        lookup_eraseKey_other h h2 hne t]
    · rcases eq_or_ne h2 k with hk2 | hk2
      · have hb : (h2 == k) = true := beq_iff_eq.mpr hk2
        simp [eraseKey, List.lookup_cons, hk, hb]
      · have hb : (h2 == k) = false := beq_false_of_ne hk2
        simp [eraseKey, List.lookup_cons, hk, hb,
          lookup_eraseKey_other h h2 hne t]

theorem storeLookup_update_self (st : TokenStore) (h : String)
    (f : TokenRecord → TokenRecord) :
    storeLookup (storeUpdate st h f) h = (storeLookup st h).map f :=
  lookup_map_update h f st

theorem storeLookup_update_other (st : TokenStore) (h h2 : String)
    (f : TokenRecord → TokenRecord) (hne : h2 ≠ h) :
    storeLookup (storeUpdate st h f) h2 = storeLookup st h2 :=
  lookup_map_update_other h h2 f hne st

theorem storeUpdate_of_lookup_none (st : TokenStore) (h : String)
    (f : TokenRecord → TokenRecord) (hl : storeLookup st h = none) :
    storeUpdate st h f = st :=
  map_update_of_lookup_none h f st hl

/-! ## Claims -/

/-- Claim C1 --: `request_token` follows the credential lifecycle: a missing
record is created as `pending` with the freshly generated secret and
returned; an `approved` or `pending` record is returned unchanged; a
`revoked` or `denied` record gets the fresh secret, is reset to
`pending` with `approved_at`/`revoked_at` cleared, and the new pending
secret is returned (different from the old secret whenever the generated
value differs, which is what `generate_token`'s 256-bit randomness
provides). -/
theorem request_token_lifecycle (now : Nat) (newTok : String)
    (st : TokenStore) (hostname ip : String) :
    (storeLookup st hostname = none →
      request_token now newTok st hostname ip =
        (storeInsert st hostname
          ⟨newTok, TokenStatus.pending, some ip, now, none, none⟩,
         (true, some newTok, TokenStatus.pending)) ∧
      storeLookup (request_token now newTok st hostname ip).1 hostname =
        some ⟨newTok, TokenStatus.pending, some ip, now, none, none⟩) ∧
    (∀ r, storeLookup st hostname = some r →
      r.status = TokenStatus.approved ∨ r.status = TokenStatus.pending →
      request_token now newTok st hostname ip =
        (st, (true, some r.token, r.status))) ∧
    (∀ r, storeLookup st hostname = some r →
      r.status = TokenStatus.revoked ∨ r.status = TokenStatus.denied →
      (request_token now newTok st hostname ip).2 =
        (true, some newTok, TokenStatus.pending) ∧
      storeLookup (request_token now newTok st hostname ip).1 hostname =
        some ⟨newTok, TokenStatus.pending, some ip, now, none, none⟩ ∧
      (newTok ≠ r.token →
        (request_token now newTok st hostname ip).2.2.1 ≠
          some r.token)) := by
  refine ⟨?_, ?_, ?_⟩
  · intro hnone
    refine ⟨by simp [request_token, hnone], ?_⟩
    simp only [request_token, hnone]
    exact lookup_append_of_none hostname _ st hnone
  · intro r hr hstat
    rcases hstat with hs | hs <;> simp [request_token, hr, hs]
  · intro r hr hstat
    have h1 : ¬ r.status = TokenStatus.approved := by
      rcases hstat with hs | hs <;> simp [hs]
    have h2 : ¬ r.status = TokenStatus.pending := by
      rcases hstat with hs | hs <;> simp [hs]
    refine ⟨by simp [request_token, hr, h1, h2], ?_, ?_⟩
    · simp only [request_token, hr, h1, h2, if_false, ite_false]
      have hr2 : List.lookup hostname st = some r := hr
      exact (lookup_map_update hostname
        (fun _ => (⟨newTok, TokenStatus.pending, some ip, now, none,
          none⟩ : TokenRecord)) st).trans (by rw [hr2]; rfl)
    · intro hne
      simp [request_token, hr, h1, h2]
      exact fun hh => hne hh

/-- Claim C1 witness --: concrete runs of the three lifecycle branches. -/
theorem request_token_lifecycle_witness :
    (request_token 5 "new" [] "A" "1.1.1.1").2 =
      (true, some "new", TokenStatus.pending) ∧
    (request_token 5 "new"
        [("A", ⟨"old", TokenStatus.approved, none, 0, some 1, none⟩)]
        "A" "1.1.1.1").2 = (true, some "old", TokenStatus.approved) ∧
    (request_token 5 "new"
        [("A", ⟨"old", TokenStatus.denied, none, 0, none, none⟩)]
        "A" "1.1.1.1").2.2.1 ≠ some "old" := by
  refine ⟨?_, ?_, ?_⟩
  · exact congrArg Prod.snd
      ((request_token_lifecycle 5 "new" [] "A" "1.1.1.1").1 (by decide)).1
  · exact congrArg Prod.snd
      ((request_token_lifecycle 5 "new"
          [("A", ⟨"old", TokenStatus.approved, none, 0, some 1, none⟩)]
          "A" "1.1.1.1").2.1
        ⟨"old", TokenStatus.approved, none, 0, some 1, none⟩
        (by decide) (Or.inl rfl))
  · exact (((request_token_lifecycle 5 "new"
          [("A", ⟨"old", TokenStatus.denied, none, 0, none, none⟩)]
          "A" "1.1.1.1").2.2
        ⟨"old", TokenStatus.denied, none, 0, none, none⟩
        (by decide) (Or.inr rfl)).2.2 (by decide))

/-- Claim C5 counterexample --: `deny_token` on a record whose status is
`approved` (not `pending`) still flips it to `denied` and reports
success, so the operations are not guarded by the claimed state
machine. -/
theorem deny_token_changes_approved_record :
    (deny_token [("A", ⟨"t", TokenStatus.approved, none, 0, some 1, none⟩)]
        "A").2 = true ∧
    (storeLookup
        (deny_token
          [("A", ⟨"t", TokenStatus.approved, none, 0, some 1, none⟩)]
          "A").1 "A").map TokenRecord.status = some TokenStatus.denied ∧
    TokenStatus.denied ≠ TokenStatus.approved := by
  decide

/-- Claim C5 amended --: `deny_token` and `revoke_token` are unconditional
SQL UPDATEs: on any existing record — whatever its status — `deny`
sets the status to `denied` and `revoke` sets it to `revoked` (stamping
`revoked_at`), both reporting success; they report failure and leave
the store unchanged exactly when no record exists; records of other
hostnames are untouched. -/
theorem deny_revoke_unconditional (now : Nat) (st : TokenStore)
    (hostname h2 : String) :
    ((deny_token st hostname).2 = (storeLookup st hostname).isSome) ∧
    (storeLookup (deny_token st hostname).1 hostname =
      (storeLookup st hostname).map
        (fun r => { r with status := TokenStatus.denied })) ∧
    ((revoke_token now st hostname).2 =
      (storeLookup st hostname).isSome) ∧
    (storeLookup (revoke_token now st hostname).1 hostname =
      (storeLookup st hostname).map (fun r => { r with
        status := TokenStatus.revoked, revoked_at := some now })) ∧
    (h2 ≠ hostname →
      storeLookup (deny_token st hostname).1 h2 = storeLookup st h2 ∧
      storeLookup (revoke_token now st hostname).1 h2 =
        storeLookup st h2) ∧
    (storeLookup st hostname = none →
      (deny_token st hostname).1 = st ∧
      (revoke_token now st hostname).1 = st) := by
  refine ⟨rfl, ?_, rfl, ?_, ?_, ?_⟩
  · exact lookup_map_update hostname
      (fun r => { r with status := TokenStatus.denied }) st
  · exact lookup_map_update hostname
      (fun r => { r with status := TokenStatus.revoked,
                         revoked_at := some now }) st
  · intro hne
    refine ⟨?_, ?_⟩
    · show storeLookup (storeUpdate st hostname
        (fun r => { r with status := TokenStatus.denied })) h2 =
          storeLookup st h2
      exact storeLookup_update_other st hostname h2 _ hne
    · show storeLookup (storeUpdate st hostname
        (fun r => { r with status := TokenStatus.revoked,
                           revoked_at := some now })) h2 =
          storeLookup st h2
      exact storeLookup_update_other st hostname h2 _ hne
  · intro hnone
    refine ⟨?_, ?_⟩
    · show storeUpdate st hostname
        (fun r => { r with status := TokenStatus.denied }) = st
      exact storeUpdate_of_lookup_none st hostname _ hnone
    · show storeUpdate st hostname
        (fun r => { r with status := TokenStatus.revoked,
                           revoked_at := some now }) = st
      exact storeUpdate_of_lookup_none st hostname _ hnone

/-- Claim C5 amended witness --: concrete store with one approved record. -/
theorem deny_revoke_unconditional_witness :
    storeLookup
      (deny_token
        [("A", ⟨"t", TokenStatus.approved, none, 0, some 1, none⟩)]
        "A").1 "B" = none ∧
    (deny_token ([] : TokenStore) "A").1 = [] := by
  refine ⟨?_, ?_⟩
  · have h := (deny_revoke_unconditional 9
      [("A", ⟨"t", TokenStatus.approved, none, 0, some 1, none⟩)]
      "A" "B").2.2.2.2.1 (by decide)
    rw [h.1]
    decide
  · exact ((deny_revoke_unconditional 9 [] "A" "B").2.2.2.2.2
      (by decide)).1

/-- Claim C7 --: the operator `renew` command succeeds exactly on a record
whose (non-empty) secret exists with status `revoked`; it then flips the
status back to `approved` (stamping `approved_at`) while keeping the
same secret, and in every other situation it leaves the store
untouched. -/
theorem cli_renew_token_spec (now : Nat) (st : TokenStore)
    (hostname : String) :
    ((cli_renew_token now st hostname).2 = RenewOutcome.renewed ↔
      ∃ r, storeLookup st hostname = some r ∧ r.token ≠ "" ∧
        r.status = TokenStatus.revoked) ∧
    (∀ r, storeLookup st hostname = some r → r.token ≠ "" →
      r.status = TokenStatus.revoked →
      storeLookup (cli_renew_token now st hostname).1 hostname =
        some { r with status := TokenStatus.approved,
                      approved_at := some now }) ∧
    ((cli_renew_token now st hostname).2 ≠ RenewOutcome.renewed →
      (cli_renew_token now st hostname).1 = st) := by
  rcases hl : storeLookup st hostname with _ | r
  · simp [cli_renew_token, get_token_by_hostname, hl]
  · by_cases htok : r.token = ""
    · simp [cli_renew_token, get_token_by_hostname, hl, htok]
    · by_cases hstat : r.status = TokenStatus.revoked
      · have hna : ¬ r.status = TokenStatus.approved := by
          rw [hstat]; simp
        have hout : (cli_renew_token now st hostname).2 =
            RenewOutcome.renewed := by
          simp [cli_renew_token, get_token_by_hostname, approve_token,
            hl, htok, hstat, hna]
        refine ⟨?_, ?_, ?_⟩
        · rw [hout]
          simp [hl, htok, hstat]
        · intro r2 hr2 _ _
          obtain rfl : r = r2 := by injection hr2
          have hfst : (cli_renew_token now st hostname).1 =
              storeUpdate st hostname (fun rr => { rr with
                status := TokenStatus.approved,
                approved_at := some now }) := by
            simp [cli_renew_token, get_token_by_hostname, approve_token,
              hl, htok, hstat, hna]
          rw [hfst, storeLookup_update_self, hl]
          rfl
        · intro hne
          exact absurd hout hne
      · simp [cli_renew_token, get_token_by_hostname, hl, htok, hstat]

/-- Claim C7 witness --: renewing a revoked record restores `approved` with
the same secret; renewing a pending record changes nothing. -/
theorem cli_renew_token_spec_witness :
    storeLookup
      (cli_renew_token 7
        [("A", ⟨"t", TokenStatus.revoked, none, 0, none, some 3⟩)]
        "A").1 "A" =
      some ⟨"t", TokenStatus.approved, none, 0, some 7, some 3⟩ ∧
    (cli_renew_token 7
        [("A", ⟨"t", TokenStatus.pending, none, 0, none, none⟩)]
        "A").1 =
      [("A", ⟨"t", TokenStatus.pending, none, 0, none, none⟩)] := by
  refine ⟨?_, ?_⟩
  · exact (cli_renew_token_spec 7
      [("A", ⟨"t", TokenStatus.revoked, none, 0, none, some 3⟩)]
      "A").2.1 ⟨"t", TokenStatus.revoked, none, 0, none, some 3⟩
      (by decide) (by decide) rfl
  · exact (cli_renew_token_spec 7
      [("A", ⟨"t", TokenStatus.pending, none, 0, none, none⟩)]
      "A").2.2 (by decide)

/-- Claim C2 --: evaluation of `handle_registration` on each row of the
decision table.  The failure rows behave as documented (INVALID for a
missing record, a non-approved/non-revoked status, or a secret
mismatch; REVOKED for a matching secret on a revoked record; every
failure closes the connection), and the success row inserts into the
registry and leaves the connection open — but its `reply` field is
`none`: the code sends no `APPROVED` message to the peer, although
`client/client.py` (lines 241–242) documents that the server MUST send
a `TOKEN_STATUS` reply and blocks waiting for it. -/
theorem handle_registration_table_no_success_reply :
    handle_registration
      [("h", ⟨"tok", TokenStatus.approved, none, 0, some 1, none⟩)]
      [] "s1" 7 ("1.2.3.4", 5555) "REGISTER:h:tok" =
      ⟨none, false, [("h", ⟨"s1", 7, ("1.2.3.4", 5555)⟩)], some "h"⟩ ∧
    handle_registration [] [] "s1" 7 ("1.2.3.4", 5555)
      "REGISTER:h:tok" =
      ⟨some "TOKEN_STATUS:invalid", true, [], none⟩ ∧
    handle_registration
      [("h", ⟨"tok", TokenStatus.revoked, none, 0, some 1, some 2⟩)]
      [] "s1" 7 ("1.2.3.4", 5555) "REGISTER:h:tok" =
      ⟨some "TOKEN_STATUS:revoked", true, [], none⟩ ∧
    handle_registration
      [("h", ⟨"tok", TokenStatus.pending, none, 0, none, none⟩)]
      [] "s1" 7 ("1.2.3.4", 5555) "REGISTER:h:tok" =
      ⟨some "TOKEN_STATUS:invalid", true, [], none⟩ ∧
    handle_registration
      [("h", ⟨"tok", TokenStatus.denied, none, 0, none, none⟩)]
      [] "s1" 7 ("1.2.3.4", 5555) "REGISTER:h:tok" =
      ⟨some "TOKEN_STATUS:invalid", true, [], none⟩ ∧
    handle_registration
      [("h", ⟨"tok", TokenStatus.approved, none, 0, some 1, none⟩)]
      [] "s1" 7 ("1.2.3.4", 5555) "REGISTER:h:wrong" =
      ⟨some "TOKEN_STATUS:invalid", true, [], none⟩ := by
  decide

/-- Claim C3 --: after a successful registration the handler executes
`while True: time.sleep(60)`; no number of loop iterations ever changes
the registry (transport closure is never observed, since nothing reads
or probes the socket), and a dispatch to an endpoint whose entry is
still present but whose transport is closed (so the `CMD` send fails)
returns the `"Failed to send command"` error — not the
`"Client not found or not authenticated"` (NotFound) error the claim
requires after cleanup. -/
theorem idle_loop_never_removes_entry (n : Nat) (reg : Registry)
    (h cmd : String) (response : RecvOutcome) :
    handleClientIdleStep^[n] reg = reg ∧
    ((regLookup reg h).isSome →
      send_command_to_client reg false response h cmd =
        (none, "Failed to send command") ∧
      ((none : Option String), "Failed to send command") ≠
        ((none : Option String),
         "Client not found or not authenticated")) := by
  refine ⟨Function.iterate_fixed rfl n, ?_⟩
  intro hsome
  rcases hlk : regLookup reg h with _ | e
  · rw [hlk] at hsome
    simp at hsome
  · refine ⟨?_, by decide⟩
    unfold send_command_to_client
    rw [hlk]
    simp

/-- Claim C3 witness --: one registered endpoint with a closed transport. -/
theorem idle_loop_never_removes_entry_witness :
    send_command_to_client [("h", ⟨"s1", 7, ("1.2.3.4", 5555)⟩)] false
      RecvOutcome.closed "h" "whoami" =
      (none, "Failed to send command") := by
  exact ((idle_loop_never_removes_entry 3
    [("h", ⟨"s1", 7, ("1.2.3.4", 5555)⟩)] "h" "whoami"
    RecvOutcome.closed).2 (by decide)).1

/-- Claim C8 counterexample --: the registry holds an entry for hostname
`"h"` written by a newer session (`session_id = "s2"`); the teardown of
the superseded handler for the same hostname still deletes it — the
`finally` block checks only `hostname in clients`, never the session
identity — so the newer entry is not left in place. -/
theorem cleanup_removes_superseded_entry :
    handleClientCleanup [("h", ⟨"s2", 9, ("2.2.2.2", 1)⟩)] (some "h") =
      [] ∧
    regLookup
      (handleClientCleanup [("h", ⟨"s2", 9, ("2.2.2.2", 1)⟩)]
        (some "h")) "h" = none := by
  decide

/-- Claim C8 amended --: the teardown of a session handler removes whatever
registry entry currently sits under its hostname — including an entry
written by a later registration for the same hostname — and leaves
entries of all other hostnames unchanged; with no hostname (or an entry
already absent) the registry is untouched. -/
theorem handleClientCleanup_spec (reg : Registry) (h h2 : String) :
    handleClientCleanup reg none = reg ∧
    (h ≠ "" → regLookup (handleClientCleanup reg (some h)) h = none) ∧
    (h2 ≠ h →
      regLookup (handleClientCleanup reg (some h)) h2 =
        regLookup reg h2) ∧
    (regLookup reg h = none →
      handleClientCleanup reg (some h) = reg) := by
  have hsimp : handleClientCleanup reg (some h) =
      if h ≠ "" ∧ (regLookup reg h).isSome then eraseKey h reg
      else reg := rfl
  refine ⟨rfl, ?_, ?_, ?_⟩
  · intro hne
    rw [hsimp]
    by_cases hsome : (regLookup reg h).isSome
    · rw [if_pos ⟨hne, hsome⟩]
      exact lookup_eraseKey_self h reg
    · rw [if_neg (fun hc => hsome hc.2)]
      exact Option.not_isSome_iff_eq_none.mp hsome
  · intro hne
    rw [hsimp]
    by_cases hc : h ≠ "" ∧ (regLookup reg h).isSome
    · rw [if_pos hc]
      exact lookup_eraseKey_other h h2 hne reg
    · rw [if_neg hc]
  · intro hnone
    rw [hsimp, if_neg]
    intro hc
    rw [hnone] at hc
    simp at hc

/-- Claim C8 amended witness --: two-host registry, cleanup of one. -/
theorem handleClientCleanup_spec_witness :
    regLookup
      (handleClientCleanup
        [("h", ⟨"s2", 9, ("2.2.2.2", 1)⟩),
         ("g", ⟨"s3", 4, ("3.3.3.3", 2)⟩)] (some "h")) "h" = none ∧
    regLookup
      (handleClientCleanup
        [("h", ⟨"s2", 9, ("2.2.2.2", 1)⟩),
         ("g", ⟨"s3", 4, ("3.3.3.3", 2)⟩)] (some "h")) "g" =
      some ⟨"s3", 4, ("3.3.3.3", 2)⟩ := by
  have hs := handleClientCleanup_spec
    [("h", ⟨"s2", 9, ("2.2.2.2", 1)⟩),
     ("g", ⟨"s3", 4, ("3.3.3.3", 2)⟩)] "h" "g"
  refine ⟨hs.2.1 (by decide), ?_⟩
  rw [hs.2.2.1 (by decide)]
  decide

/-- Index bounds of `enumerate(l, s)` entries. -/
theorem mem_enumFrom_bounds {α : Type} :
    ∀ (l : List α) (s : Nat) (p : Nat × α), p ∈ List.enumFrom s l →
      s ≤ p.1 ∧ p.1 < s + l.length
  | [], _, _, hp => by simp [List.enumFrom] at hp
  | a :: t, s, p, hp => by
    simp only [List.enumFrom, List.mem_cons] at hp
    rcases hp with rfl | hp
    · simp
    · have hb := mem_enumFrom_bounds t (s + 1) p hp
      exact ⟨by omega, by simp only [List.length_cons]; omega⟩

/-- Claim C9 --: operator ordinal-to-id resolution is total and silently
falls back: when the argument does not parse as an integer, or parses
to an integer outside the 1-based range of the relevant snapshot, the
resolvers return `None` instead of raising, and the CLI then treats the
argument literally as a hostname (`resolve(target) or target`) — so
`approve 5` with fewer than five pending requests operates on the
hostname `"5"`. -/
theorem ordinal_resolution_fallback
    (pending : List (String × String × Nat))
    (clientsList : List String) (target : String) (now : Nat)
    (st : TokenStore) :
    (pyInt? target = none →
      get_pending_hostname_by_number pending target = none ∧
      get_hostname_by_number clientsList target = none) ∧
    (∀ num, pyInt? target = some num →
      ¬ (1 ≤ num ∧ num ≤ pending.length) →
      get_pending_hostname_by_number pending target = none) ∧
    (∀ num, pyInt? target = some num →
      ¬ (1 ≤ num ∧ num ≤ clientsList.length) →
      get_hostname_by_number clientsList target = none) ∧
    (get_pending_hostname_by_number pending target = none →
      cli_approve_token now st pending target =
        (target, approve_token now st target)) := by
  refine ⟨?_, ?_, ?_, ?_⟩
  · intro hnone
    constructor
    · unfold get_pending_hostname_by_number
      rw [hnone]
    · unfold get_hostname_by_number
      rw [hnone]
  · intro num hnum hout
    unfold get_pending_hostname_by_number
    rw [hnum]
    exact dif_neg hout
  · intro num hnum hout
    unfold get_hostname_by_number
    rw [hnum]
    have hfind : (List.enumFrom 1 clientsList).find?
        (fun p => (p.1 : Int) = num) = none := by
      rw [List.find?_eq_none]
      intro p hp
      have hb := mem_enumFrom_bounds clientsList 1 p hp
      simp only [decide_eq_true_eq]
      intro hcast
      apply hout
      constructor
      · rw [← hcast]
        exact_mod_cast hb.1
      · rw [← hcast]
        have := hb.2
        exact_mod_cast by omega
    show Option.map (fun p => p.2)
      ((List.enumFrom 1 clientsList).find?
        (fun p => (p.1 : Int) = num)) = none
    rw [hfind]
    rfl
  · intro hres
    unfold cli_approve_token
    rw [hres]
    rfl

/-! ### UTF-8 codec lemmas -/

theorem utf8DecodeLoop_congr :
    ∀ (fuel1 fuel2 : Nat) (s : List Nat), s.length ≤ fuel1 →
      s.length ≤ fuel2 → utf8DecodeLoop fuel1 s = utf8DecodeLoop fuel2 s
  | fuel1, fuel2, [], _, _ => by
    cases fuel1 <;> cases fuel2 <;> rfl
  | 0, _, _ :: _, h1, _ => by simp at h1
  | _ + 1, 0, _ :: _, _, h2 => by simp at h2
  | fuel1 + 1, fuel2 + 1, b :: rest, h1, h2 => by
    simp only [utf8DecodeLoop]
    have hd : (rest.drop (utf8DecodeStep b rest).2).length ≤ rest.length :=
      by simp [List.length_drop]
    have hr1 : rest.length ≤ fuel1 := by
      simp only [List.length_cons] at h1
      omega
    have hr2 : rest.length ≤ fuel2 := by
      simp only [List.length_cons] at h2
      omega
    exact congrArg _ (utf8DecodeLoop_congr fuel1 fuel2 _
      (le_trans hd hr1) (le_trans hd hr2))

theorem utf8DecodeReplace_cons (b : Nat) (rest : List Nat) :
    utf8DecodeReplace (b :: rest) =
      (utf8DecodeStep b rest).1 ::
        utf8DecodeReplace (rest.drop (utf8DecodeStep b rest).2) := by
  unfold utf8DecodeReplace
  simp only [List.length_cons, utf8DecodeLoop]
  refine congrArg _ (utf8DecodeLoop_congr rest.length _ _ ?_ le_rfl)
  simp [List.length_drop]

theorem utf8EncodeChar_one (n : Nat) (h : n < 0x80) :
    utf8EncodeChar n = [n] := by
  unfold utf8EncodeChar
  rw [if_pos h]

theorem utf8EncodeChar_two (n : Nat) (h1 : 0x80 ≤ n) (h2 : n < 0x800) :
    utf8EncodeChar n = [0xC0 + n / 64, 0x80 + n % 64] := by
  unfold utf8EncodeChar
  rw [if_neg (by omega), if_pos h2]

theorem utf8EncodeChar_three (n : Nat) (h1 : 0x800 ≤ n)
    (h2 : n < 0x10000) :
    utf8EncodeChar n =
      [0xE0 + n / 4096, 0x80 + n / 64 % 64, 0x80 + n % 64] := by
  unfold utf8EncodeChar
  rw [if_neg (by omega), if_neg (by omega), if_pos h2]

theorem utf8EncodeChar_four (n : Nat) (h1 : 0x10000 ≤ n) :
    utf8EncodeChar n =
      [0xF0 + n / 262144, 0x80 + n / 4096 % 64, 0x80 + n / 64 % 64,
       0x80 + n % 64] := by
  unfold utf8EncodeChar
  rw [if_neg (by omega), if_neg (by omega), if_neg (by omega)]

theorem utf8DecodeStep_one (n : Nat) (rest : List Nat) (h : n < 0x80) :
    utf8DecodeStep n rest = (n, 0) := by
  unfold utf8DecodeStep
  rw [if_pos h]

theorem utf8DecodeStep_two (n : Nat) (rest : List Nat) (h1 : 0x80 ≤ n)
    (h2 : n < 0x800) :
    utf8DecodeStep (0xC0 + n / 64) ((0x80 + n % 64) :: rest) = (n, 1) := by
  unfold utf8DecodeStep
  rw [if_neg (by omega), if_pos (by omega : 0xC2 ≤ 0xC0 + n / 64 ∧
    0xC0 + n / 64 ≤ 0xDF)]
  show (if 0x80 ≤ 0x80 + n % 64 ∧ 0x80 + n % 64 ≤ 0xBF then
      ((0xC0 + n / 64 - 0xC0) * 64 + (0x80 + n % 64 - 0x80), 1)
    else (replacementChar, 0)) = (n, 1)
  rw [if_pos (by omega), show (0xC0 + n / 64 - 0xC0) * 64 +
    (0x80 + n % 64 - 0x80) = n by omega]

theorem utf8DecodeStep_three (n : Nat) (rest : List Nat)
    (h1 : 0x800 ≤ n) (h2 : n < 0x10000)
    (hsur : ¬ (0xD800 ≤ n ∧ n ≤ 0xDFFF)) :
    utf8DecodeStep (0xE0 + n / 4096)
      ((0x80 + n / 64 % 64) :: (0x80 + n % 64) :: rest) = (n, 2) := by
  unfold utf8DecodeStep
  rw [if_neg (by omega), if_neg (by omega), if_pos
    (by omega : 0xE0 ≤ 0xE0 + n / 4096 ∧ 0xE0 + n / 4096 ≤ 0xEF)]
  show (if (if 0xE0 + n / 4096 = 0xE0 then 0xA0 else 0x80) ≤
          0x80 + n / 64 % 64 ∧ 0x80 + n / 64 % 64 ≤
          (if 0xE0 + n / 4096 = 0xED then 0x9F else 0xBF) then
      if 0x80 ≤ 0x80 + n % 64 ∧ 0x80 + n % 64 ≤ 0xBF then
        ((0xE0 + n / 4096 - 0xE0) * 4096 +
          (0x80 + n / 64 % 64 - 0x80) * 64 + (0x80 + n % 64 - 0x80), 2)
      else (replacementChar, 1)
    else (replacementChar, 0)) = (n, 2)
  have hcond : (if 0xE0 + n / 4096 = 0xE0 then 0xA0 else 0x80) ≤
      0x80 + n / 64 % 64 ∧ 0x80 + n / 64 % 64 ≤
      (if 0xE0 + n / 4096 = 0xED then 0x9F else 0xBF) := by
    constructor
    · by_cases he : 0xE0 + n / 4096 = 0xE0
      · rw [if_pos he]
        omega
      · rw [if_neg he]
        omega
    · by_cases he : 0xE0 + n / 4096 = 0xED
      · rw [if_pos he]
        omega
      · rw [if_neg he]
        omega
  rw [if_pos hcond, if_pos (by omega),
    show (0xE0 + n / 4096 - 0xE0) * 4096 +
      (0x80 + n / 64 % 64 - 0x80) * 64 + (0x80 + n % 64 - 0x80) = n
      by omega]

theorem utf8DecodeStep_four (n : Nat) (rest : List Nat)
    (h1 : 0x10000 ≤ n) (h2 : n < 0x110000) :
    utf8DecodeStep (0xF0 + n / 262144)
      ((0x80 + n / 4096 % 64) :: (0x80 + n / 64 % 64) ::
        (0x80 + n % 64) :: rest) = (n, 3) := by
  unfold utf8DecodeStep
  rw [if_neg (by omega), if_neg (by omega), if_neg (by omega), if_pos
    (by omega : 0xF0 ≤ 0xF0 + n / 262144 ∧ 0xF0 + n / 262144 ≤ 0xF4)]
  show (if (if 0xF0 + n / 262144 = 0xF0 then 0x90 else 0x80) ≤
          0x80 + n / 4096 % 64 ∧ 0x80 + n / 4096 % 64 ≤
          (if 0xF0 + n / 262144 = 0xF4 then 0x8F else 0xBF) then
      if 0x80 ≤ 0x80 + n / 64 % 64 ∧ 0x80 + n / 64 % 64 ≤ 0xBF then
        if 0x80 ≤ 0x80 + n % 64 ∧ 0x80 + n % 64 ≤ 0xBF then
          ((0xF0 + n / 262144 - 0xF0) * 262144 +
            (0x80 + n / 4096 % 64 - 0x80) * 4096 +
            (0x80 + n / 64 % 64 - 0x80) * 64 + (0x80 + n % 64 - 0x80),
           3)
        else (replacementChar, 2)
      else (replacementChar, 1)
    else (replacementChar, 0)) = (n, 3)
  have hcond : (if 0xF0 + n / 262144 = 0xF0 then 0x90 else 0x80) ≤
      0x80 + n / 4096 % 64 ∧ 0x80 + n / 4096 % 64 ≤
      (if 0xF0 + n / 262144 = 0xF4 then 0x8F else 0xBF) := by
    constructor
    · by_cases he : 0xF0 + n / 262144 = 0xF0
      · rw [if_pos he]
        omega
      · rw [if_neg he]
        omega
    · by_cases he : 0xF0 + n / 262144 = 0xF4
      · rw [if_pos he]
        omega
      · rw [if_neg he]
        omega
  rw [if_pos hcond, if_pos (by omega), if_pos (by omega),
    show (0xF0 + n / 262144 - 0xF0) * 262144 +
      (0x80 + n / 4096 % 64 - 0x80) * 4096 +
      (0x80 + n / 64 % 64 - 0x80) * 64 + (0x80 + n % 64 - 0x80) = n
      by omega]

theorem utf8DecodeReplace_encodeChar (n : Nat) (hs : IsScalar n)
    (rest : List Nat) :
    utf8DecodeReplace (utf8EncodeChar n ++ rest) =
      n :: utf8DecodeReplace rest := by
  obtain ⟨hlt, hsur⟩ := hs
  by_cases h1 : n < 0x80
  · rw [utf8EncodeChar_one n h1]
    simp only [List.singleton_append]
    rw [utf8DecodeReplace_cons, utf8DecodeStep_one n rest h1]
    simp
  · by_cases h2 : n < 0x800
    · rw [utf8EncodeChar_two n (by omega) h2]
      simp only [List.cons_append, List.nil_append]
      rw [utf8DecodeReplace_cons, utf8DecodeStep_two n rest (by omega) h2]
      simp
    · by_cases h3 : n < 0x10000
      · rw [utf8EncodeChar_three n (by omega) h3]
        simp only [List.cons_append, List.nil_append]
        rw [utf8DecodeReplace_cons,
          utf8DecodeStep_three n rest (by omega) h3 hsur]
        simp
      · rw [utf8EncodeChar_four n (by omega)]
        simp only [List.cons_append, List.nil_append]
        rw [utf8DecodeReplace_cons,
          utf8DecodeStep_four n rest (by omega) hlt]
        simp

theorem utf8_decode_encode (s : List Nat) (hs : ∀ n ∈ s, IsScalar n) :
    utf8DecodeReplace (utf8Encode s) = s := by
  induction s with
  | nil => rfl
  | cons a t ih =>
    have ha : IsScalar a := hs a (List.mem_cons_self a t)
    have ht : ∀ n ∈ t, IsScalar n := fun n hn =>
      hs n (List.mem_cons_of_mem a hn)
    show utf8DecodeReplace (utf8EncodeChar a ++ utf8Encode t) = a :: t
    rw [utf8DecodeReplace_encodeChar a ha, ih ht]

/-! ### Framing lemmas -/

theorem unpackBE4_packBE4 (n : Nat) (hn : n < 2 ^ 32) :
    unpackBE4 (packBE4 n) = n := by
  show n / 2 ^ 24 % 256 * 2 ^ 24 + n / 2 ^ 16 % 256 * 2 ^ 16 +
    n / 2 ^ 8 % 256 * 2 ^ 8 + n % 256 = n
  omega

/-- One-step unfolding of `recv_message_raw` once the 4-byte header is
known to be available. -/
theorem recv_message_raw_eq (stream : List Nat)
    (h4 : 4 ≤ stream.length) :
    recv_message_raw stream =
      (if unpackBE4 (stream.take 4) > MAX_MESSAGE_SIZE then (none, 4)
       else
        match recv_exact (stream.drop 4) (unpackBE4 (stream.take 4)) with
        | none => (none, stream.length)
        | some (message_data, _) =>
          (some message_data, 4 + unpackBE4 (stream.take 4))) := by
  unfold recv_message_raw
  rw [show recv_exact stream 4 = some (stream.take 4, stream.drop 4)
    from by unfold recv_exact; rw [if_pos h4]]

theorem recv_message_raw_frame (bytes : List Nat)
    (hlen : bytes.length ≤ MAX_MESSAGE_SIZE) :
    recv_message_raw (packBE4 bytes.length ++ bytes) =
      (some bytes, 4 + bytes.length) := by
  have hpack : (packBE4 bytes.length).length = 4 := rfl
  have h4 : 4 ≤ (packBE4 bytes.length ++ bytes).length := by
    rw [List.length_append, hpack]
    omega
  have htake : (packBE4 bytes.length ++ bytes).take 4 =
      packBE4 bytes.length := by
    rw [← hpack]
    exact List.take_left _ _
  have hdrop : (packBE4 bytes.length ++ bytes).drop 4 = bytes := by
    rw [← hpack]
    exact List.drop_left _ _
  have hun : unpackBE4 ((packBE4 bytes.length ++ bytes).take 4) =
      bytes.length := by
    rw [htake]
    exact unpackBE4_packBE4 _ (by
      have : MAX_MESSAGE_SIZE < 2 ^ 32 := by decide
      omega)
  rw [recv_message_raw_eq _ h4, hun, hdrop,
    if_neg (not_lt.mpr hlen),
    show recv_exact bytes bytes.length = some (bytes, []) from by
      unfold recv_exact
      rw [if_pos le_rfl, List.take_length, List.drop_length]]

/-- Claim C10 --: `send_message` is total at its interface: with a working
transport and a length that fits the 4-byte header it frames the UTF-8
encoding of the payload behind a big-endian length equal to the
payload's byte length and returns `True`; on a transport failure (or a
`struct.error` for a length ≥ 2³²) it returns `False` instead of
raising; and no maximum-size check exists on the send path — a byte
payload longer than `MAX_MESSAGE_SIZE` (the 10 MiB receive limit) is
framed and sent all the same. -/
theorem send_message_total_spec (transportOk : Bool)
    (message : List Nat) :
    ((utf8Encode message).length < 2 ^ 32 → transportOk = true →
      send_message transportOk message =
        (true, packBE4 (utf8Encode message).length ++
          utf8Encode message) ∧
      (packBE4 (utf8Encode message).length).length = 4 ∧
      unpackBE4 (packBE4 (utf8Encode message).length) =
        (utf8Encode message).length) ∧
    (transportOk = false →
      send_message transportOk message = (false, [])) ∧
    (2 ^ 32 ≤ (utf8Encode message).length →
      send_message transportOk message = (false, [])) ∧
    (∀ p : List Nat, MAX_MESSAGE_SIZE < p.length →
      p.length < 2 ^ 32 →
      send_message_bytes true p = (true, packBE4 p.length ++ p)) := by
  refine ⟨?_, ?_, ?_, ?_⟩
  · intro hlen hok
    subst hok
    refine ⟨?_, rfl, unpackBE4_packBE4 _ hlen⟩
    unfold send_message send_message_bytes
    rw [if_pos ⟨hlen, rfl⟩]
  · intro hok
    subst hok
    unfold send_message send_message_bytes
    rw [if_neg (fun hc => Bool.false_ne_true hc.2)]
  · intro hlen
    unfold send_message send_message_bytes
    rw [if_neg (fun hc => absurd hc.1 (by omega))]
  · intro p hbig hfit
    unfold send_message_bytes
    rw [if_pos ⟨hfit, rfl⟩]

/-- Claim C10 witness --: a one-byte payload is framed `[0,0,0,1,65]`; a
byte payload one past the 10 MiB receive limit is still framed and
sent. -/
theorem send_message_total_spec_witness :
    send_message true [65] = (true, [0, 0, 0, 1, 65]) ∧
    send_message_bytes true (List.replicate (MAX_MESSAGE_SIZE + 1) 0) =
      (true, packBE4 (MAX_MESSAGE_SIZE + 1) ++
        List.replicate (MAX_MESSAGE_SIZE + 1) 0) := by
  constructor
  · exact (((send_message_total_spec true [65]).1 (by decide)
      rfl).1).trans (by decide)
  · have hlen : (List.replicate (MAX_MESSAGE_SIZE + 1) (0 : Nat)).length
        = MAX_MESSAGE_SIZE + 1 := List.length_replicate _ _
    have h := (send_message_total_spec true []).2.2.2
      (List.replicate (MAX_MESSAGE_SIZE + 1) 0)
      (by rw [hlen]; omega) (by rw [hlen]; decide)
    rw [hlen] at h
    exact h

/-- Claim C4 counterexample --: a frame declaring length 2²⁴ (> 10 MiB) and
a stream that closes during a partial read produce the *same* interface
outcome `None` from `recv_message` — the oversize failure is not a
distinct `ProtocolError` value (the generic `except` inside
`recv_message` swallows the internally raised exception), so the
claimed distinction does not exist at the function's interface. -/
theorem recv_oversize_outcome_not_distinct :
    recv_message [1, 0, 0, 0] = none ∧
    recv_message [0, 0, 0, 5, 65] = none ∧
    recv_message [1, 0, 0, 0] = recv_message [0, 0, 0, 5, 65] ∧
    recv_message_raw [1, 0, 0, 0] = (none, 4) := by
  decide

/-- Claim C4 amended --: a declared length above `MAX_MESSAGE_SIZE` makes
`recv_message` fail after consuming only the 4 header bytes — the
payload is not read — and return `None`; a stream that closes during a
partial payload read also returns `None` after consuming what was
available.  Both failures surface as the same `None` at the interface:
the oversize case raises a generic `Exception` internally that
`recv_message`'s own handler catches (the distinct
`MessageTooLargeError` declared in `common/exceptions.py` is never
used). -/
theorem recv_message_oversize_spec (stream : List Nat) :
    (4 ≤ stream.length →
      MAX_MESSAGE_SIZE < unpackBE4 (stream.take 4) →
      recv_message_raw stream = (none, 4) ∧
      recv_message stream = none) ∧
    (4 ≤ stream.length →
      unpackBE4 (stream.take 4) ≤ MAX_MESSAGE_SIZE →
      stream.length < 4 + unpackBE4 (stream.take 4) →
      recv_message_raw stream = (none, stream.length) ∧
      recv_message stream = none) := by
  constructor
  · intro h4 hover
    have hraw : recv_message_raw stream = (none, 4) := by
      rw [recv_message_raw_eq _ h4, if_pos hover]
    refine ⟨hraw, ?_⟩
    unfold recv_message
    rw [hraw]
    rfl
  · intro h4 hfit hshort
    have hraw : recv_message_raw stream = (none, stream.length) := by
      rw [recv_message_raw_eq _ h4, if_neg (not_lt.mpr hfit),
        show recv_exact (stream.drop 4) (unpackBE4 (stream.take 4)) =
          none from by
          unfold recv_exact
          rw [if_neg (by rw [List.length_drop]; omega)]]
    refine ⟨hraw, ?_⟩
    unfold recv_message
    rw [hraw]
    rfl

/-- Claim C4 amended witness --: the oversize stream `[1,0,0,0]` (declares
2²⁴) and the short stream `[0,0,0,5,65]` (declares 5, delivers 1). -/
theorem recv_message_oversize_spec_witness :
    recv_message_raw [1, 0, 0, 0] = (none, 4) ∧
    recv_message_raw [0, 0, 0, 5, 65] = (none, 5) := by
  refine ⟨((recv_message_oversize_spec [1, 0, 0, 0]).1 (by decide)
    (by decide)).1, ?_⟩
  exact ((recv_message_oversize_spec [0, 0, 0, 5, 65]).2 (by decide)
    (by decide) (by decide)).1

/-- Claim C6 counterexample --: the byte payload `[0xFF]` (length 1, within
0..10 MiB) does not survive the round trip: the receiver decodes with
`errors='replace'` into U+FFFD, so the received text re-encodes to
`EF BF BD`, not the original byte — encode-then-decode is not the
identity on arbitrary byte payloads. -/
theorem roundtrip_not_identity_on_bytes :
    recv_message ((send_message_bytes true [0xFF]).2) =
      some [0xFFFD] ∧
    some [0xFFFD] ≠ some [0xFF] ∧
    utf8Encode [0xFFFD] = [0xEF, 0xBF, 0xBD] ∧
    utf8Encode [0xFFFD] ≠ [0xFF] := by
  decide

/-- Claim C6 amended --: the round trip is the identity exactly on payloads
that are valid UTF-8: for every text payload (sequence of Unicode
scalar values) whose UTF-8 encoding is at most `MAX_MESSAGE_SIZE`
bytes, `recv_message` applied to the bytes `send_message` wrote returns
the original payload; an arbitrary (non-UTF-8) byte payload instead
comes back replacement-decoded. -/
theorem send_recv_roundtrip (message : List Nat)
    (hs : ∀ n ∈ message, IsScalar n)
    (hlen : (utf8Encode message).length ≤ MAX_MESSAGE_SIZE) :
    recv_message ((send_message true message).2) = some message := by
  have hsend : send_message true message =
      (true, packBE4 (utf8Encode message).length ++
        utf8Encode message) := by
    unfold send_message send_message_bytes
    rw [if_pos ⟨by
      have : MAX_MESSAGE_SIZE < 2 ^ 32 := by decide
      omega, rfl⟩]
  rw [hsend]
  unfold recv_message
  rw [recv_message_raw_frame _ hlen]
  simp [utf8_decode_encode message hs]

/-- Claim C6 amended witness --: a mixed 1/2/3/4-byte-per-character payload
round-trips intact. -/
theorem send_recv_roundtrip_witness :
    recv_message ((send_message true
      [72, 0x7FF, 0x2603, 0xFFFF, 0x1F600]).2) =
      some [72, 0x7FF, 0x2603, 0xFFFF, 0x1F600] := by
  exact send_recv_roundtrip [72, 0x7FF, 0x2603, 0xFFFF, 0x1F600]
    (by decide) (by decide)

/-- Claim C9 witness --: `approve 5` with no pending requests resolves to
`None` and falls back to the literal hostname `"5"`; a non-numeric
argument resolves to `None` on both snapshots. -/
theorem ordinal_resolution_fallback_witness :
    get_pending_hostname_by_number [] "5" = none ∧
    cli_approve_token 0 [] [] "5" = ("5", approve_token 0 [] "5") ∧
    get_hostname_by_number ["x"] "abc" = none := by
  have h1 := (ordinal_resolution_fallback [] ["x"] "5" 0 []).2.1 5
    (by decide) (by decide)
  have h2 := (ordinal_resolution_fallback [] ["x"] "5" 0 []).2.2.2 h1
  have h3 := ((ordinal_resolution_fallback [] ["x"] "abc" 0 []).1
    (by decide)).2
  exact ⟨h1, h2, h3⟩

end C2
